import Mathlib

/-!
# Verification of the shpdeck coordinate-mapping and shape-emission engine

A shallow embedding of `shpdeck.go`: the linear geographic-to-screen
projection (`vmap`), the style parser (`colorop`), the three markup
emitters (`deckpolygon`, `deckdot`, `deckpolyline`), the shape dispatcher
(`mapshape`) and the geometry adapters (`PolygonCoords`, `PolylineCoords`,
`MultipointCoords`, `PointCoords`).

Modelling choices:
* Go `float64` values are modelled as rationals (`ℚ`); the geometry of the
  claims (which value goes where, in which order) does not depend on binary
  rounding.
* Go `fmt.Fprintf` on an `io.Writer` is modelled by returning the written
  `String`; sequential writes become string concatenation.
* `%.Nf` is modelled by `fmtFixed N`, fixed-point decimal rendering with
  `N` digits after the point; `%q` on the plain color/opacity tokens is
  modelled by `goQuote` (wrap in double quotes; the tokens involved contain
  no characters that Go would escape).
* A Go slice-index access that can be out of range is modelled with
  `List.get?`; a function whose Go original can panic returns
  `Option String`, `none` standing for the panic.
-/

/-- Go `float64`, modelled as `ℚ`. -/
abbrev F : Type := ℚ

/-- Left-pad a digit string with zeros to width `w`. -/
def padZeros (w : Nat) (s : String) : String :=
  String.mk (List.replicate (w - s.length) '0') ++ s

/-- Model of Go `%.precf` fixed-point formatting of a `float64`
(rounding half away from zero; the inputs in the claims are exact).
`n` is `⌊|q| * scale + 1/2⌋` computed on the numerator and denominator. -/
def fmtFixed (prec : Nat) (q : ℚ) : String :=
  let scale : ℕ := 10 ^ prec
  let n : ℕ := (2 * q.num.natAbs * scale + q.den) / (2 * q.den)
  let sign : String := if q.num < 0 then "-" else ""
  sign ++ toString (n / scale) ++ "." ++ padZeros prec (toString (n % scale))

/-- Model of Go `%q` on the color/opacity tokens (plain double quoting). -/
def goQuote (s : String) : String := "\"" ++ s ++ "\""

/-- Model of Go `strings.Index(s, c)`: byte index of the first occurrence,
`-1` when absent (the strings involved are ASCII, so byte = char index). -/
def strIndex (s : String) (c : Char) : Int :=
  match s.toList.findIdx? (· = c) with
  | some i => (i : Int)
  | none => -1

/-- Function `vmap` maps one interval to another (shpdeck.go line 33). -/
def vmap (value : F) (low1 : F) (high1 : F) (low2 : F) (high2 : F) : F :=
  low2 + (high2 - low2) * (value - low1) / (high1 - low1)

/-- Function `colorop` makes a color and optional opacity in the form `name:op`
(shpdeck.go line 38).  Go's `color[0:ci]` / `color[ci+1:]` are the char
take / drop on the ASCII strings involved. -/
def colorop (color : String) : String × String :=
  let ci : Int := strIndex color ':'
  let op : String := "100"
  if 0 < ci ∧ ci < (color.length : Int) then
    ((color.toList.take ci.toNat).asString, (color.toList.drop (ci.toNat + 1)).asString)
  else
    (color, op)

/-- The `linefmt` format string applied to its arguments (shpdeck.go line 28). -/
def linefmt (x1 y1 x2 y2 : F) (fill op : String) (sp : F) : String :=
  "<line xp1=\"" ++ fmtFixed 7 x1 ++ "\" yp1=\"" ++ fmtFixed 7 y1 ++
  "\" xp2=\"" ++ fmtFixed 7 x2 ++ "\" yp2=\"" ++ fmtFixed 7 y2 ++
  "\" color=" ++ goQuote fill ++ " opacity=" ++ goQuote op ++
  " sp=\"" ++ fmtFixed 3 sp ++ "\"/>\n"

/-- The `dotfmt` format string applied to its arguments (shpdeck.go line 29).
Note the source has no space between `hr="100"` and `color=`. -/
def dotfmt (x y : F) (fill op : String) (wp : F) : String :=
  "<ellipse xp=\"" ++ fmtFixed 7 x ++ "\" yp=\"" ++ fmtFixed 7 y ++
  "\" hr=\"100\"color=" ++ goQuote fill ++ " opacity=" ++ goQuote op ++
  " wp=\"" ++ fmtFixed 3 wp ++ "\"/>\n"

/-- Sequence a list of optional values; `none` anywhere (a Go panic in the
producing access) makes the whole result `none`. -/
def collect {α : Type} : List (Option α) → Option (List α)
  | [] => some []
  | none :: _ => none
  | some a :: rest => (collect rest).map (fun tail => a :: tail)

/-- Function `deckpolygon` makes deck markup for a polygon given x, y coordinate
slices (shpdeck.go line 49).  The guard returns with nothing written when
`len(x) < 3` or `len(x) ≠ len(y)`; past the guard every index access is in
bounds, so the `headD`/`getD` defaults are never used.  The first `Fprintf`
writes the element head and `x[0]`, the loop writes `x[1] .. x[nc-1]`, and
the final `Fprintf` of the x pass writes `x[end]` once more. -/
def deckpolygon (x y : List F) (color : String) : String :=
  if x.length < 3 ∨ x.length ≠ y.length then "" else
  "<polygon color=" ++ goQuote (colorop color).1 ++ " opacity=" ++
    goQuote (colorop color).2 ++
    " xc=\"" ++ fmtFixed 5 (x.headD 0) ++
    String.join ((x.drop 1).map fun v => " " ++ fmtFixed 5 v) ++
    " " ++ fmtFixed 5 (x.getD (x.length - 1) 0) ++ "\" " ++
    "yc=\"" ++ fmtFixed 5 (y.headD 0) ++
    String.join ((y.drop 1).map fun v => " " ++ fmtFixed 5 v) ++
    " " ++ fmtFixed 5 (y.getD (x.length - 1) 0) ++ "\"/>\n"

/-- Function `deckdot` makes a series of circles in deck markup from a set of (x,y)
coordinates (shpdeck.go line 70).  The loop runs over the indices of `x`;
`y[i]` can be out of range in Go, hence the `Option`. -/
def deckdot (x y : List F) (color : String) (size : F) : Option String :=
  match collect ((List.range x.length).map fun i =>
      match x.get? i, y.get? i with
      | some xi, some yi =>
          some (dotfmt xi yi (colorop color).1 (colorop color).2 size)
      | _, _ => none) with
  | some dots => some (String.join dots)
  | none => none

/-- Function `deckpolyline` makes a series of lines in deck markup from a set of
(x,y) coordinates (shpdeck.go line 78).  The loop writes the `lx-1`
consecutive segments; the final unconditional `Fprintf` writes the closing
segment from `(x[0],y[0])` to `(x[lx-1],y[lx-1])` and is where Go indexes
out of range on an empty slice. -/
def deckpolyline (x y : List F) (color : String) (size : F) : Option String :=
  match collect ((List.range (x.length - 1)).map fun i =>
      match x.get? i, y.get? i, x.get? (i + 1), y.get? (i + 1) with
      | some x1, some y1, some x2, some y2 =>
          some (linefmt x1 y1 x2 y2 (colorop color).1 (colorop color).2 size)
      | _, _, _, _ => none),
    x.get? 0, y.get? 0, x.get? (x.length - 1), y.get? (x.length - 1) with
  | some segs, some x0, some y0, some xe, some ye =>
      some (String.join segs ++
        linefmt x0 y0 xe ye (colorop color).1 (colorop color).2 size)
  | _, _, _, _, _ => none

/-- Function `mapshape` writes markup to the destination according to the specified
shape (shpdeck.go line 88); the `switch` with no matching case writes
nothing. -/
def mapshape (x y : List F) (shape : String) (color : String) (size : F) :
    Option String :=
  if shape = "p" ∨ shape = "poly" ∨ shape = "region" ∨ shape = "polygon" then
    some (deckpolygon x y color)
  else if shape = "l" ∨ shape = "line" ∨ shape = "border" then
    deckpolyline x y color size
  else if shape = "d" ∨ shape = "dot" ∨ shape = "circle" then
    deckdot x y color size
  else
    some ""

/-- The `Geometry` record (shpdeck.go line 11): screen extents and
geographic extents. -/
structure Geometry where
  Xmin : F
  Xmax : F
  Ymin : F
  Ymax : F
  Latmin : F
  Latmax : F
  Longmin : F
  Longmax : F

/-- The `Config` record (shpdeck.go line 15). -/
structure Config where
  maptype : String
  color : String
  shapesize : F

/-- A `shp.Point`: one geographic coordinate. -/
structure ShpPoint where
  X : F
  Y : F

instance : Inhabited ShpPoint := ⟨⟨0, 0⟩⟩

/-- The fields shared by `shp.Polygon` and `shp.PolyLine`: part-start
offsets into a flat point sequence.  `NumParts`, `NumPoints` and the
entries of `Parts` are `int32` in Go; the claims about these records
assume well-formed (non-negative, in-range) values, modelled as `ℕ`. -/
structure PartedGeom where
  NumParts : ℕ
  NumPoints : ℕ
  Parts : List ℕ
  Points : List ShpPoint

/-- Projection of a point's X through `vmap` with the extents of
`PolygonCoords` and friends (shpdeck.go line 116). -/
def projX (g : Geometry) (p : ShpPoint) : F :=
  vmap p.X g.Longmin g.Longmax g.Xmin g.Xmax

/-- Projection of a point's Y through `vmap` (shpdeck.go line 117). -/
def projY (g : Geometry) (p : ShpPoint) : F :=
  vmap p.Y g.Latmin g.Latmax g.Ymin g.Ymax

/-- The inner loop `for j := start; j < stop; j++` reading `Points[j]`
(shpdeck.go line 115): the points at indices `start, .., stop-1`, `none`
when some access is out of range. -/
def partPoints (points : List ShpPoint) (start stop : ℕ) :
    Option (List ShpPoint) :=
  collect ((List.range' start (stop - start)).map fun j => points.get? j)

/-- Function `PolygonCoords` converts a set of coordinates and makes polygons
(shpdeck.go line 108): for every part but the last, read the part's
half-open index range `[Parts[i], Parts[i+1])`, project each point, and
dispatch; then the same for the last part with the range
`[Parts[last], NumPoints)`.  `Parts.getD` stands for `Parts[i]`, in bounds
whenever `len(Parts) = NumParts` as the claims assume. -/
def PolygonCoords (poly : PartedGeom) (g : Geometry) (c : Config) :
    Option String :=
  (collect ((List.range (poly.NumParts - 1)).map fun i =>
      (partPoints poly.Points (poly.Parts.getD i 0) (poly.Parts.getD (i + 1) 0)).bind
        fun pts => mapshape (pts.map (projX g)) (pts.map (projY g))
          c.maptype c.color c.shapesize)).bind fun headOuts =>
    ((partPoints poly.Points (poly.Parts.getD (poly.NumParts - 1) 0)
        poly.NumPoints).bind
      fun pts => mapshape (pts.map (projX g)) (pts.map (projY g))
        c.maptype c.color c.shapesize).map
      fun lastOut => String.join headOuts ++ lastOut

/-- Function `PolylineCoords` (shpdeck.go line 135): textually the same per-part
loop as `PolygonCoords`, over a `shp.PolyLine` record. -/
def PolylineCoords (poly : PartedGeom) (g : Geometry) (c : Config) :
    Option String :=
  (collect ((List.range (poly.NumParts - 1)).map fun i =>
      (partPoints poly.Points (poly.Parts.getD i 0) (poly.Parts.getD (i + 1) 0)).bind
        fun pts => mapshape (pts.map (projX g)) (pts.map (projY g))
          c.maptype c.color c.shapesize)).bind fun headOuts =>
    ((partPoints poly.Points (poly.Parts.getD (poly.NumParts - 1) 0)
        poly.NumPoints).bind
      fun pts => mapshape (pts.map (projX g)) (pts.map (projY g))
        c.maptype c.color c.shapesize).map
      fun lastOut => String.join headOuts ++ lastOut

/-- Function `MultipointCoords` (shpdeck.go line 160): project every point of the
record and dispatch once with the fixed keyword `"dot"`. -/
def MultipointCoords (mp : PartedGeom) (g : Geometry) (c : Config) :
    Option String :=
  (partPoints mp.Points 0 mp.NumPoints).bind fun pts =>
    mapshape (pts.map (projX g)) (pts.map (projY g)) "dot" c.color c.shapesize

/-- Function `PointCoords` (shpdeck.go line 172): place one circle, formatted with
`dotfmt` directly. -/
def PointCoords (p : ShpPoint) (g : Geometry) (c : Config) : String :=
  dotfmt (vmap p.X g.Longmin g.Longmax g.Xmin g.Xmax)
    (vmap p.Y g.Latmin g.Latmax g.Ymin g.Ymax)
    (colorop c.color).1 (colorop c.color).2 c.shapesize

/-! ## Spec-side descriptions

These definitions follow the specification's wording; they are compared
with the source-side definitions above by the theorems below. -/

/-- Spec-side: a list of tokens joined by single spaces. -/
def spaceSep : List String → String
  | [] => ""
  | a :: rest => a ++ String.join (rest.map fun s => " " ++ s)

/-- Spec-side: the polygon element of §6 with the given attribute values. -/
def polygonElem (fill op xc yc : String) : String :=
  "<polygon color=" ++ goQuote fill ++ " opacity=" ++ goQuote op ++
    " xc=\"" ++ xc ++ "\" " ++ "yc=\"" ++ yc ++ "\"/>\n"

/-- Spec-side: the dot/ellipse element of §6, every attribute separated
from the next by a space. -/
def specDotElem (x y : F) (fill op : String) (wp : F) : String :=
  "<ellipse xp=\"" ++ fmtFixed 7 x ++ "\" yp=\"" ++ fmtFixed 7 y ++
  "\" hr=\"100\" color=" ++ goQuote fill ++ " opacity=" ++ goQuote op ++
  " wp=\"" ++ fmtFixed 3 wp ++ "\"/>\n"

/-- Spec-side: the `n` line elements the line emitter is specified to
produce on `n` points — the `n-1` consecutive segments followed by the
closing segment from the first to the last point. -/
def lineSegs (x y : List F) (fill op : String) (size : F) : List String :=
  ((List.range (x.length - 1)).map fun i =>
    linefmt (x.getD i 0) (y.getD i 0) (x.getD (i + 1) 0) (y.getD (i + 1) 0)
      fill op size) ++
  [linefmt (x.getD 0 0) (y.getD 0 0) (x.getD (x.length - 1) 0)
    (y.getD (x.length - 1) 0) fill op size]

/-- Spec-side: the half-open index range of part `i` — `Parts[i]` up to
`Parts[i+1]`, or up to `NumPoints` for the final part. -/
def partStop (r : PartedGeom) (i : ℕ) : ℕ :=
  if i + 1 < r.NumParts then r.Parts.getD (i + 1) 0 else r.NumPoints

/-- Spec-side: the projected coordinate sequences of part `i`, as slices
of the projection of the record's whole point sequence: exactly the
points whose indices lie in `[Parts[i], partStop i)`. -/
def partSlice (r : PartedGeom) (g : Geometry) (i : ℕ) : List F × List F :=
  (((r.Points.map (projX g)).drop (r.Parts.getD i 0)).take
      (partStop r i - r.Parts.getD i 0),
   ((r.Points.map (projY g)).drop (r.Parts.getD i 0)).take
      (partStop r i - r.Parts.getD i 0))

/-- Spec-side: one Shape-Dispatcher invocation per part, the `i`-th on
exactly part `i`'s projected coordinate slices. -/
def dispatchCalls (r : PartedGeom) (g : Geometry) (c : Config) :
    Option (List String) :=
  collect ((List.range r.NumParts).map fun i =>
    mapshape (partSlice r g i).1 (partSlice r g i).2 c.maptype c.color c.shapesize)

/-! ## Helper lemmas -/

lemma string_ext {a b : String} (h : a.data = b.data) : a = b := by
  cases a; cases b; exact congrArg String.mk h

lemma join_append (l₁ l₂ : List String) :
    String.join (l₁ ++ l₂) = String.join l₁ ++ String.join l₂ := by
  apply string_ext; simp

lemma join_cons (s : String) (l : List String) :
    String.join (s :: l) = s ++ String.join l := by
  apply string_ext; simp

lemma collect_cons_some {α : Type} (a : α) (l : List (Option α)) :
    collect (some a :: l) = (collect l).map (fun tail => a :: tail) := rfl

lemma collect_append {α : Type} (l₁ l₂ : List (Option α)) :
    collect (l₁ ++ l₂) =
      (collect l₁).bind (fun a => (collect l₂).map (fun b => a ++ b)) := by
  induction l₁ with
  | nil => cases h : collect l₂ <;> simp [collect, h]
  | cons o rest ih =>
      cases o with
      | none => simp [collect]
      | some a =>
          cases h1 : collect rest <;> cases h2 : collect l₂ <;>
            simp [collect, ih, h1, h2]

lemma collect_map_some {α β : Type} (l : List α) (f : α → Option β) (g : α → β)
    (h : ∀ a ∈ l, f a = some (g a)) :
    collect (l.map f) = some (l.map g) := by
  induction l with
  | nil => simp [collect]
  | cons a rest ih =>
      have ha := h a (by simp)
      have hrest := ih fun b hb => h b (by simp [hb])
      simp [collect, ha, hrest]

lemma get?_eq_some_getD {α : Type} (l : List α) (d : α) (n : ℕ)
    (h : n < l.length) : l.get? n = some (l.getD n d) := by
  simp [List.getD_eq_getElem?_getD, List.getElem?_eq_getElem h, List.get?_eq_getElem?]

lemma getD_length_sub_one {α : Type} (l : List α) (d : α) :
    l.getD (l.length - 1) d = l.getLast?.getD d := by
  rw [List.getD_eq_getElem?_getD, List.getLast?_eq_getElem?]

lemma join_singleton (s : String) : String.join [s] = s := by
  apply string_ext; simp

/-- The `for j := s; j < s + n` read loop collects exactly the slice
`drop s, take n` of the underlying list. -/
lemma collect_range'_get? {α : Type} (l : List α) (s n : ℕ)
    (h : s + n ≤ l.length) :
    collect ((List.range' s n).map fun j => l.get? j) =
      some ((l.drop s).take n) := by
  induction n generalizing s with
  | zero => simp [collect]
  | succ n ih =>
      have hs : s < l.length := by omega
      have hrest := ih (s + 1) (by omega)
      rw [List.range'_succ]
      simp only [List.map_cons]
      rw [List.get?_eq_getElem?, List.getElem?_eq_getElem hs, collect_cons_some, hrest]
      rw [List.drop_eq_getElem_cons hs, List.take_succ_cons]
      rfl

lemma findIdx?_first_eq {α : Type} (p : α → Bool) (pre post : List α) (a : α)
    (hpre : ∀ x ∈ pre, p x = false) (ha : p a = true) :
    (pre ++ a :: post).findIdx? p = some pre.length := by
  induction pre with
  | nil => simp [ha]
  | cons x xs ih =>
      have hx := hpre x (by simp)
      have hxs := ih fun b hb => hpre b (by simp [hb])
      simp [hx, List.findIdx?_succ, hxs]

/-! ## Claims -/

/-- C6: for every pair of coordinate sequences `x`, `y`, if `x` has fewer
than 3 elements or `x` and `y` have different lengths, the polygon emitter
writes nothing to the output stream and raises no error. -/
theorem deckpolygon_guard_noop (x y : List F) (color : String)
    (h : x.length < 3 ∨ x.length ≠ y.length) :
    deckpolygon x y color = "" := by
  unfold deckpolygon
  exact if_pos h

/-- Witness for C6 at `x = [0, 1]`, `y = [0, 1]`. -/
theorem deckpolygon_guard_noop_witness :
    (([(0 : F), 1]).length < 3 ∨ ([(0 : F), 1]).length ≠ ([(0 : F), 1]).length) ∧
      deckpolygon [(0 : F), 1] [(0 : F), 1] "red" = "" :=
  ⟨Or.inl (by decide),
   deckpolygon_guard_noop [(0 : F), 1] [(0 : F), 1] "red" (Or.inl (by decide))⟩

/-- C7: if the compound style string has its (first) separator at a
position strictly between the start and end, `colorop` returns the
substring before it as the color and the substring after it as the
opacity; otherwise (no separator, or separator at position 0) it returns
the whole string with opacity `"100"`; in particular
`colorop "red" = ("red", "100")` and `colorop "red:50" = ("red", "50")`. -/
theorem colorop_split_rule (s : String) :
    (∀ pre post : List Char, s.toList = pre ++ ':' :: post → ':' ∉ pre →
      pre ≠ [] → colorop s = (pre.asString, post.asString)) ∧
    (':' ∉ s.toList → colorop s = (s, "100")) ∧
    (∀ post : List Char, s.toList = ':' :: post → colorop s = (s, "100")) ∧
    colorop "red" = ("red", "100") ∧ colorop "red:50" = ("red", "50") := by
  refine ⟨?_, ?_, ?_, by decide, by decide⟩
  · intro pre post h hmem hne
    have hfind : s.toList.findIdx? (· = ':') = some pre.length := by
      rw [h]
      refine findIdx?_first_eq _ pre post ':' (fun x hx => ?_) (by simp)
      simp only [decide_eq_false_iff_not]
      rintro rfl
      exact hmem hx
    have hlen : s.length = pre.length + (post.length + 1) := by
      have hd : s.length = s.toList.length := rfl
      rw [hd, h, List.length_append, List.length_cons]
    have hpos : 0 < pre.length := List.length_pos.mpr hne
    unfold colorop strIndex
    rw [hfind]
    have hcond : (0 : Int) < (pre.length : Int) ∧
        ((pre.length : Int) < (s.length : Int)) := by
      constructor
      · exact_mod_cast hpos
      · rw [hlen]; exact_mod_cast by omega
    rw [if_pos hcond]
    have htn : ((pre.length : Int)).toNat = pre.length := Int.toNat_natCast _
    rw [htn, h]
    rw [List.take_left' rfl]
    have hsplit : pre ++ ':' :: post = (pre ++ [':']) ++ post := by simp
    rw [hsplit, List.drop_left' (by simp)]
  · intro hmem
    have hfind : s.toList.findIdx? (· = ':') = none := by
      rw [List.findIdx?_eq_none_iff]
      intro x hx
      simp only [decide_eq_false_iff_not]
      rintro rfl
      exact hmem hx
    unfold colorop strIndex
    rw [hfind]
    exact if_neg (by simp)
  · intro post h
    have hfind : s.toList.findIdx? (· = ':') = some 0 := by
      rw [h]; simp
    unfold colorop strIndex
    rw [hfind]
    exact if_neg (by simp)

/-- Witness for C7: the split rule applied at the concrete input
`"red:50"` with `pre = ['r','e','d']`, `post = ['5','0']`. -/
theorem colorop_split_rule_witness :
    colorop "red:50" = (['r', 'e', 'd'].asString, ['5', '0'].asString) :=
  (colorop_split_rule "red:50").1 ['r', 'e', 'd'] ['5', '0'] (by decide)
    (by decide) (by decide)

/-- C8 counterexample: `colorop ":50"` returns `(":50", "100")`, not
`("", "50")` as the claim states. -/
theorem colorop_colon50_cex :
    colorop ":50" = (":50", "100") ∧ colorop ":50" ≠ ("", "50") := by
  constructor <;> decide

/-- C8 amended: a separator at position 0 does not trigger a split — the
whole string `":50"` is the color and the opacity defaults to `"100"`. -/
theorem colorop_colon50_eq : colorop ":50" = (":50", "100") := by decide

/-- C9: a shape keyword outside the three synonym classes makes the
dispatcher write nothing and raise no error, and keywords within one
synonym class produce identical output for identical input. -/
theorem mapshape_unknown_and_synonyms (x y : List F) (shape color : String)
    (size : F)
    (h : shape ∉ (["p", "poly", "region", "polygon", "l", "line", "border",
      "d", "dot", "circle"] : List String)) :
    mapshape x y shape color size = some "" ∧
    mapshape x y "poly" color size = mapshape x y "p" color size ∧
    mapshape x y "region" color size = mapshape x y "p" color size ∧
    mapshape x y "polygon" color size = mapshape x y "p" color size ∧
    mapshape x y "line" color size = mapshape x y "l" color size ∧
    mapshape x y "border" color size = mapshape x y "l" color size ∧
    mapshape x y "dot" color size = mapshape x y "d" color size ∧
    mapshape x y "circle" color size = mapshape x y "d" color size := by
  refine ⟨?_, by simp [mapshape], by simp [mapshape], by simp [mapshape],
    by simp [mapshape], by simp [mapshape], by simp [mapshape], by simp [mapshape]⟩
  simp only [List.mem_cons, List.not_mem_nil, or_false, not_or] at h
  obtain ⟨h1, h2, h3, h4, h5, h6, h7, h8, h9, h10⟩ := h
  unfold mapshape
  rw [if_neg (by tauto), if_neg (by tauto), if_neg (by tauto)]

/-- Witness for C9 at the unrecognized keyword `"star"`. -/
theorem mapshape_unknown_and_synonyms_witness :
    ("star" ∉ (["p", "poly", "region", "polygon", "l", "line", "border",
      "d", "dot", "circle"] : List String)) ∧
    mapshape [(0 : F)] [(0 : F)] "star" "red" 1 = some "" :=
  ⟨by decide,
   (mapshape_unknown_and_synonyms [(0 : F)] [(0 : F)] "star" "red" 1 (by decide)).1⟩

/-- C4: `vmap` computes `low2 + (high2 - low2) * (value - low1) /
(high1 - low1)`, maps the source endpoints exactly to the destination
endpoints, and is strictly monotonic in `value`, increasing when source
and destination intervals have the same orientation and decreasing when
they have opposite orientations. -/
theorem vmap_affine_endpoints_mono (value low1 high1 low2 high2 : F)
    (h : low1 ≠ high1) :
    vmap value low1 high1 low2 high2 =
      low2 + (high2 - low2) * (value - low1) / (high1 - low1) ∧
    vmap low1 low1 high1 low2 high2 = low2 ∧
    vmap high1 low1 high1 low2 high2 = high2 ∧
    ((low1 < high1 ∧ low2 < high2) ∨ (high1 < low1 ∧ high2 < low2) →
      StrictMono fun v => vmap v low1 high1 low2 high2) ∧
    ((low1 < high1 ∧ high2 < low2) ∨ (high1 < low1 ∧ low2 < high2) →
      StrictAnti fun v => vmap v low1 high1 low2 high2) := by
  have hne : high1 - low1 ≠ 0 := sub_ne_zero.mpr (Ne.symm h)
  refine ⟨rfl, ?_, ?_, ?_, ?_⟩
  · unfold vmap
    rw [sub_self, mul_zero, zero_div, add_zero]
  · unfold vmap
    rw [mul_div_assoc, div_self hne, mul_one]
    ring
  · intro hk' a b hab
    have hk : 0 < (high2 - low2) / (high1 - low1) := by
      rcases hk' with ⟨ha, hb⟩ | ⟨ha, hb⟩
      · exact div_pos (by linarith) (by linarith)
      · exact div_pos_of_neg_of_neg (by linarith) (by linarith)
    show vmap a low1 high1 low2 high2 < vmap b low1 high1 low2 high2
    unfold vmap
    rw [mul_div_right_comm, mul_div_right_comm]
    have hmul := mul_lt_mul_of_pos_left (sub_lt_sub_right hab low1) hk
    linarith
  · intro hk' a b hab
    have hk : (high2 - low2) / (high1 - low1) < 0 := by
      rcases hk' with ⟨ha, hb⟩ | ⟨ha, hb⟩
      · exact div_neg_of_neg_of_pos (by linarith) (by linarith)
      · exact div_neg_of_pos_of_neg (by linarith) (by linarith)
    show vmap b low1 high1 low2 high2 < vmap a low1 high1 low2 high2
    unfold vmap
    rw [mul_div_right_comm, mul_div_right_comm]
    have hmul := mul_lt_mul_of_neg_left (sub_lt_sub_right hab low1) hk
    linarith

/-- Witness for C4 at `value = 5`, source `[0, 2]`, destination `[10, 20]`. -/
theorem vmap_affine_endpoints_mono_witness :
    vmap 5 0 2 10 20 = 10 + (20 - 10) * (5 - 0) / (2 - 0) ∧
    vmap 0 0 2 10 20 = 10 ∧
    vmap 2 0 2 10 20 = 20 ∧
    (((0 : F) < 2 ∧ (10 : F) < 20) ∨ ((2 : F) < 0 ∧ (20 : F) < 10) →
      StrictMono fun v => vmap v 0 2 10 20) ∧
    (((0 : F) < 2 ∧ (20 : F) < 10) ∨ ((2 : F) < 0 ∧ (10 : F) < 20) →
      StrictAnti fun v => vmap v 0 2 10 20) :=
  vmap_affine_endpoints_mono 5 0 2 10 20 (by decide)

/-- C10: the line emitter has no length guard — on an empty `x` it
reaches the out-of-bounds access `x[0]` of the closing segment (modelled
as `none`), unlike the dot and polygon emitters which emit nothing; and
every index access is in bounds when `x` is non-empty and `y` is at least
as long as `x`. -/
theorem deckpolyline_bounds (x y : List F) (color : String) (size : F) :
    deckpolyline [] y color size = none ∧
    deckdot [] y color size = some "" ∧
    deckpolygon [] y color = "" ∧
    (x ≠ [] → x.length ≤ y.length → (deckpolyline x y color size).isSome) := by
  refine ⟨?_, rfl, rfl, ?_⟩
  · unfold deckpolyline
    cases h1 : y.get? (List.length ([] : List F) - 1) <;>
      simp [collect, h1]
  · intro hne hlen
    have hn : 0 < x.length := List.length_pos.mpr hne
    unfold deckpolyline
    have hcoll : collect ((List.range (x.length - 1)).map fun i =>
        match x.get? i, y.get? i, x.get? (i + 1), y.get? (i + 1) with
        | some x1, some y1, some x2, some y2 =>
            some (linefmt x1 y1 x2 y2 (colorop color).1 (colorop color).2 size)
        | _, _, _, _ => none) =
        some ((List.range (x.length - 1)).map fun i =>
          linefmt (x.getD i 0) (y.getD i 0) (x.getD (i + 1) 0) (y.getD (i + 1) 0)
            (colorop color).1 (colorop color).2 size) := by
      apply collect_map_some
      intro i hi
      have hi' : i < x.length - 1 := List.mem_range.mp hi
      rw [get?_eq_some_getD x 0 i (by omega), get?_eq_some_getD y 0 i (by omega),
          get?_eq_some_getD x 0 (i + 1) (by omega), get?_eq_some_getD y 0 (i + 1) (by omega)]
    rw [hcoll, get?_eq_some_getD x 0 0 hn, get?_eq_some_getD y 0 0 (by omega),
        get?_eq_some_getD x 0 (x.length - 1) (by omega),
        get?_eq_some_getD y 0 (x.length - 1) (by omega)]
    rfl

/-- Witness for C10 at `x = [0]`, `y = [0]`. -/
theorem deckpolyline_bounds_witness :
    ([(0 : F)] ≠ ([] : List F)) ∧ [(0 : F)].length ≤ [(0 : F)].length ∧
    (deckpolyline [(0 : F)] [(0 : F)] "red" 1).isSome :=
  ⟨by decide, by decide,
   (deckpolyline_bounds [(0 : F)] [(0 : F)] "red" 1).2.2.2 (by decide) (by decide)⟩

/-- C2 (code bug): the dot element written by the dot emitter and by the
Point adapter has no space between the `hr="100"` attribute and the
`color` attribute, so it does not match the space-separated format of
spec §6 character for character. -/
theorem dotfmt_missing_space :
    deckdot [(0 : F)] [(0 : F)] "red" 1 = some (dotfmt 0 0 "red" "100" 1) ∧
    PointCoords ⟨0, 0⟩ ⟨0, 1, 0, 1, 0, 1, 0, 1⟩ ⟨"dot", "red", 1⟩ =
      dotfmt 0 0 "red" "100" 1 ∧
    dotfmt 0 0 "red" "100" 1 =
      "<ellipse xp=\"0.0000000\" yp=\"0.0000000\" hr=\"100\"color=\"red\" opacity=\"100\" wp=\"1.000\"/>\n" ∧
    specDotElem 0 0 "red" "100" 1 =
      "<ellipse xp=\"0.0000000\" yp=\"0.0000000\" hr=\"100\" color=\"red\" opacity=\"100\" wp=\"1.000\"/>\n" ∧
    dotfmt 0 0 "red" "100" 1 ≠ specDotElem 0 0 "red" "100" 1 := by
  refine ⟨by decide, ?_, by decide, by decide, by decide⟩
  show dotfmt (vmap 0 0 1 0 1) (vmap 0 0 1 0 1)
    (colorop "red").1 (colorop "red").2 1 = dotfmt 0 0 "red" "100" 1
  rw [show vmap 0 0 1 0 1 = 0 by unfold vmap; norm_num,
      show (colorop "red").1 = "red" by decide,
      show (colorop "red").2 = "100" by decide]

/-- C3: on equal-length inputs with at least 2 points the line emitter
writes exactly `n` line elements — the `n-1` segments joining consecutive
points in input order, then one closing segment from the first to the
last point — so the output is always a closed loop. -/
theorem deckpolyline_closed_loop (x y : List F) (color : String) (size : F)
    (h2 : 2 ≤ x.length) (hlen : y.length = x.length) :
    deckpolyline x y color size =
      some (String.join (lineSegs x y (colorop color).1 (colorop color).2 size)) ∧
    (lineSegs x y (colorop color).1 (colorop color).2 size).length = x.length := by
  constructor
  · unfold deckpolyline
    have hcoll : collect ((List.range (x.length - 1)).map fun i =>
        match x.get? i, y.get? i, x.get? (i + 1), y.get? (i + 1) with
        | some x1, some y1, some x2, some y2 =>
            some (linefmt x1 y1 x2 y2 (colorop color).1 (colorop color).2 size)
        | _, _, _, _ => none) =
        some ((List.range (x.length - 1)).map fun i =>
          linefmt (x.getD i 0) (y.getD i 0) (x.getD (i + 1) 0) (y.getD (i + 1) 0)
            (colorop color).1 (colorop color).2 size) := by
      apply collect_map_some
      intro i hi
      have hi' : i < x.length - 1 := List.mem_range.mp hi
      rw [get?_eq_some_getD x 0 i (by omega), get?_eq_some_getD y 0 i (by omega),
          get?_eq_some_getD x 0 (i + 1) (by omega), get?_eq_some_getD y 0 (i + 1) (by omega)]
    rw [hcoll, get?_eq_some_getD x 0 0 (by omega), get?_eq_some_getD y 0 0 (by omega),
        get?_eq_some_getD x 0 (x.length - 1) (by omega),
        get?_eq_some_getD y 0 (x.length - 1) (by omega)]
    unfold lineSegs
    rw [join_append, join_singleton]
  · unfold lineSegs
    rw [List.length_append, List.length_map, List.length_range, List.length_singleton]
    omega

/-- Witness for C3 at the claim's example `x = [0, 1, 2]`, `y = [0, 0, 0]`:
two interior segments plus one closing segment, three lines total. -/
theorem deckpolyline_closed_loop_witness :
    2 ≤ ([(0 : F), 1, 2]).length ∧
    (deckpolyline [(0 : F), 1, 2] [(0 : F), 0, 0] "red" 1 =
      some (String.join (lineSegs [(0 : F), 1, 2] [(0 : F), 0, 0]
        (colorop "red").1 (colorop "red").2 1)) ∧
    (lineSegs [(0 : F), 1, 2] [(0 : F), 0, 0]
      (colorop "red").1 (colorop "red").2 1).length = 3) :=
  ⟨by decide,
   deckpolyline_closed_loop [(0 : F), 1, 2] [(0 : F), 0, 0] "red" 1
     (by decide) (by decide)⟩

/-- C1 counterexample: on `x = [0,1,1]`, `y = [0,0,1]`, color `"blue:80"`
the polygon emitter duplicates the final vertex — the actual `xc` list is
`"0.00000 1.00000 1.00000 1.00000"` — so the output is not the element the
claim states (vertex lists with no duplicated vertex appended). -/
theorem deckpolygon_duplicate_last_cex :
    deckpolygon [(0 : F), 1, 1] [(0 : F), 0, 1] "blue:80" =
      polygonElem "blue" "80" "0.00000 1.00000 1.00000 1.00000"
        "0.00000 0.00000 1.00000 1.00000" ∧
    deckpolygon [(0 : F), 1, 1] [(0 : F), 0, 1] "blue:80" ≠
      polygonElem "blue" "80" "0.00000 1.00000 1.00000"
        "0.00000 0.00000 1.00000" := by
  constructor <;> decide

/-- C1 amended: past the guard, the polygon emitter writes exactly one
polygon element whose `xc` attribute lists `x[0] .. x[n-1]` in given order
followed by one duplicated copy of the last value (and likewise `yc`),
each at 5 decimal digits, space-separated. -/
theorem deckpolygon_vertex_lists (x y : List F) (color : String)
    (h3 : 3 ≤ x.length) (hxy : x.length = y.length) :
    deckpolygon x y color =
      polygonElem (colorop color).1 (colorop color).2
        (spaceSep ((x ++ [x.getLast?.getD 0]).map (fmtFixed 5)))
        (spaceSep ((y ++ [y.getLast?.getD 0]).map (fmtFixed 5))) := by
  obtain ⟨a, xs, rfl⟩ : ∃ a xs, x = a :: xs := by
    cases x with
    | nil => simp at h3
    | cons a xs => exact ⟨a, xs, rfl⟩
  obtain ⟨b, ys, rfl⟩ : ∃ b ys, y = b :: ys := by
    cases y with
    | nil => simp at hxy
    | cons b ys => exact ⟨b, ys, rfl⟩
  unfold deckpolygon
  rw [if_neg (by push_neg; exact ⟨by omega, hxy⟩)]
  have hysub : (b :: ys).getD ((a :: xs).length - 1) 0 = (b :: ys).getLast?.getD 0 := by
    rw [hxy, getD_length_sub_one]
  rw [hysub, getD_length_sub_one (a :: xs) 0]
  simp only [polygonElem, spaceSep, List.headD_cons, List.drop_succ_cons,
    List.drop_zero, List.cons_append, List.map_cons, List.map_append,
    List.map_map, List.map_nil, join_append, join_singleton,
    Function.comp_def, String.append_assoc]

/-- Witness for C1 (amended) at `x = [0,1,1]`, `y = [0,0,1]`,
color `"blue:80"`. -/
theorem deckpolygon_vertex_lists_witness :
    3 ≤ ([(0 : F), 1, 1]).length ∧
    deckpolygon [(0 : F), 1, 1] [(0 : F), 0, 1] "blue:80" =
      polygonElem (colorop "blue:80").1 (colorop "blue:80").2
        (spaceSep (([(0 : F), 1, 1] ++ [([(0 : F), 1, 1]).getLast?.getD 0]).map (fmtFixed 5)))
        (spaceSep (([(0 : F), 0, 1] ++ [([(0 : F), 0, 1]).getLast?.getD 0]).map (fmtFixed 5))) :=
  ⟨by decide,
   deckpolygon_vertex_lists [(0 : F), 1, 1] [(0 : F), 0, 1] "blue:80"
     (by decide) (by decide)⟩

lemma collect_singleton {α : Type} (o : Option α) :
    collect [o] = o.map fun a => [a] := by
  cases o <;> rfl

lemma getD_mem_of_lt {α : Type} (l : List α) (d : α) (i : ℕ) (h : i < l.length) :
    l.getD i d ∈ l := by
  simp [List.getD_eq_getElem?_getD, List.getElem?_eq_getElem h, List.getElem_mem]

/-- The part-reading loop returns exactly the slice of the point list
between its start and stop index when both are in range. -/
lemma partPoints_eq_slice (points : List ShpPoint) (s t : ℕ)
    (hs : s ≤ points.length) (ht : t ≤ points.length) :
    partPoints points s t = some ((points.drop s).take (t - s)) := by
  unfold partPoints
  exact collect_range'_get? points s (t - s) (by omega)

/-- Reading a part and projecting it equals dispatching on the slices of
the projected whole point sequence. -/
lemma bindPart_eq (r : PartedGeom) (g : Geometry) (c : Config) (s t : ℕ)
    (hs : s ≤ r.Points.length) (ht : t ≤ r.Points.length) :
    ((partPoints r.Points s t).bind fun pts =>
      mapshape (pts.map (projX g)) (pts.map (projY g))
        c.maptype c.color c.shapesize) =
    mapshape (((r.Points.map (projX g)).drop s).take (t - s))
      (((r.Points.map (projY g)).drop s).take (t - s))
      c.maptype c.color c.shapesize := by
  rw [partPoints_eq_slice _ _ _ hs ht, Option.some_bind,
      List.map_take, List.map_drop, List.map_take, List.map_drop]

/-- C5: on a record with `NumParts ≥ 1` offsets (all within the point
count, with `Parts` of length `NumParts` and `NumPoints` the point count),
both part-iterating adapters invoke the dispatcher exactly once per part,
the `i`-th invocation on exactly the projected points whose indices lie in
`[Parts[i], Parts[i+1])` — `[Parts[NumParts-1], NumPoints)` for the final
part — with no point leaking into another part. -/
theorem parts_independent_dispatch (r : PartedGeom) (g : Geometry) (c : Config)
    (hp : r.Parts.length = r.NumParts) (h1 : 1 ≤ r.NumParts)
    (hn : r.NumPoints = r.Points.length)
    (hb : ∀ p ∈ r.Parts, p ≤ r.NumPoints) :
    PolygonCoords r g c = (dispatchCalls r g c).map String.join ∧
    PolylineCoords r g c = (dispatchCalls r g c).map String.join := by
  suffices h : PolygonCoords r g c = (dispatchCalls r g c).map String.join by
    exact ⟨h, h⟩
  have hstart : ∀ i, i < r.NumParts → r.Parts.getD i 0 ≤ r.Points.length := by
    intro i hi
    have hmem : r.Parts.getD i 0 ∈ r.Parts :=
      getD_mem_of_lt r.Parts 0 i (by omega)
    exact hn ▸ hb _ hmem
  have hmap : (List.range (r.NumParts - 1)).map (fun i =>
      (partPoints r.Points (r.Parts.getD i 0) (r.Parts.getD (i + 1) 0)).bind
        fun pts => mapshape (pts.map (projX g)) (pts.map (projY g))
          c.maptype c.color c.shapesize) =
      (List.range (r.NumParts - 1)).map (fun i =>
        mapshape (partSlice r g i).1 (partSlice r g i).2
          c.maptype c.color c.shapesize) := by
    apply List.map_congr_left
    intro i hi
    have hi' : i < r.NumParts - 1 := List.mem_range.mp hi
    have hstop : partStop r i = r.Parts.getD (i + 1) 0 := by
      unfold partStop
      exact if_pos (by omega)
    rw [bindPart_eq r g c _ _ (hstart i (by omega)) (hstart (i + 1) (by omega)),
        partSlice, hstop]
  have hlast : ((partPoints r.Points (r.Parts.getD (r.NumParts - 1) 0)
      r.NumPoints).bind fun pts =>
        mapshape (pts.map (projX g)) (pts.map (projY g))
          c.maptype c.color c.shapesize) =
      mapshape (partSlice r g (r.NumParts - 1)).1
        (partSlice r g (r.NumParts - 1)).2 c.maptype c.color c.shapesize := by
    have hstop : partStop r (r.NumParts - 1) = r.NumPoints := by
      unfold partStop
      exact if_neg (by omega)
    rw [bindPart_eq r g c _ _ (hstart _ (by omega)) (le_of_eq hn),
        partSlice, hstop]
  have hrange : List.range r.NumParts =
      List.range (r.NumParts - 1) ++ [r.NumParts - 1] := by
    conv_lhs => rw [show r.NumParts = (r.NumParts - 1) + 1 by omega,
      List.range_succ]
  unfold PolygonCoords dispatchCalls
  rw [hmap, hrange, List.map_append, collect_append, List.map_singleton,
      collect_singleton, hlast]
  cases hA : collect ((List.range (r.NumParts - 1)).map fun i =>
      mapshape (partSlice r g i).1 (partSlice r g i).2
        c.maptype c.color c.shapesize) with
  | none => rfl
  | some heads =>
      cases hL : mapshape (partSlice r g (r.NumParts - 1)).1
          (partSlice r g (r.NumParts - 1)).2 c.maptype c.color c.shapesize with
      | none => rfl
      | some lastOut =>
          simp [join_append, join_singleton]

/-- Witness for C5: a two-part record of four points, parts `[0, 2)` and
`[2, 4)`. -/
theorem parts_independent_dispatch_witness :
    PolygonCoords ⟨2, 4, [0, 2], [⟨0, 0⟩, ⟨1, 0⟩, ⟨1, 1⟩, ⟨0, 1⟩]⟩
        ⟨0, 100, 0, 100, 0, 1, 0, 1⟩ ⟨"dot", "red", 1⟩ =
      (dispatchCalls ⟨2, 4, [0, 2], [⟨0, 0⟩, ⟨1, 0⟩, ⟨1, 1⟩, ⟨0, 1⟩]⟩
        ⟨0, 100, 0, 100, 0, 1, 0, 1⟩ ⟨"dot", "red", 1⟩).map String.join :=
  (parts_independent_dispatch ⟨2, 4, [0, 2], [⟨0, 0⟩, ⟨1, 0⟩, ⟨1, 1⟩, ⟨0, 1⟩]⟩
    ⟨0, 100, 0, 100, 0, 1, 0, 1⟩ ⟨"dot", "red", 1⟩
    (by decide) (by decide) (by decide) (by decide)).1
